import Mathlib

/-!
Verification of the pagexml-hf layout-parsing and export pipeline.

The Python sources (`pagexml_hf/parser.py`, `pagexml_hf/exporters.py`) are
shallowly embedded below.  XML element trees are modelled as a nested
inductive; Python strings are processed as `List Char`; Python `int`
overflow does not exist, so integers are `Int`/`Nat`; fallible Python code
(statements whose evaluation can raise) is modelled in `Except PyErr`.
External collaborators (the `xml.etree` parser itself, `chardet`, PIL/cv2
pixel operations) enter as explicit oracle parameters or abstracted values,
never as stubs of repository code.
-/

namespace PagexmlHf

/-! ## Python primitives on character lists -/

/-- The characters Python's `str.split()` and `\s` treat as whitespace
(ASCII subset, which is all the inputs here use). -/
def isPyWs (c : Char) : Bool :=
  c == ' ' || c == '\t' || c == '\n' || c == '\r' || c == Char.ofNat 11 || c == Char.ofNat 12

/-- Python `str.split(sep)` for a one-character separator: keeps empty
fields, so `",".split(",") = ["", ""]`. -/
def chSplitOn (sep : Char) : List Char → List (List Char)
  | [] => [[]]
  | c :: rest =>
    let r := chSplitOn sep rest
    if c == sep then [] :: r
    else
      match r with
      | t :: ts => (c :: t) :: ts
      | [] => [[c]]

/-- Helper for `chWords`: accumulates the current word (reversed). -/
def chWordsAux : List Char → List Char → List (List Char)
  | acc, [] => if acc.isEmpty then [] else [acc.reverse]
  | acc, c :: rest =>
    if isPyWs c then
      if acc.isEmpty then chWordsAux [] rest
      else acc.reverse :: chWordsAux [] rest
    else chWordsAux (c :: acc) rest

/-- Python `str.split()` with no argument: splits on whitespace runs and
never yields empty tokens. -/
def chWords (cs : List Char) : List (List Char) :=
  chWordsAux [] cs

/-- Python `str.strip()` on the whitespace set above. -/
def chTrim (cs : List Char) : List Char :=
  ((cs.dropWhile isPyWs).reverse.dropWhile isPyWs).reverse

/-- Numeric value of a run of decimal digits. -/
def digitsVal (ds : List Char) : Nat :=
  ds.foldl (fun n c => 10 * n + (c.toNat - 48)) 0

/-- Python exception outcomes relevant to the embedded code. -/
inductive PyErr where
  | valueError
deriving DecidableEq

/-- Tail of a PEP 515 digit string after its first digit: digits, with
single underscores allowed only between digits (no trailing underscore,
no doubled underscore). -/
def groupedTail : List Char → Bool
  | [] => true
  | c :: rest =>
    if c == '_' then
      match rest with
      | [] => false
      | d :: rest2 => d.isDigit && groupedTail rest2
    else c.isDigit && groupedTail rest

/-- A digit string Python `int` accepts after the optional sign: a digit
followed by a `groupedTail` (PEP 515: underscores as grouping separators
between digits, so `1_2` is accepted but `_1`, `1_`, `1__2` are not). -/
def pyDigits : List Char → Bool
  | [] => false
  | c :: rest => c.isDigit && groupedTail rest

/-- Model of Python `int(s)` on a string: strips whitespace, then accepts
an optional sign followed by a non-empty run of decimal digits with
PEP 515 underscore grouping (`int("1_2") = 12`); anything else raises
`ValueError`. -/
def pyIntList (cs0 : List Char) : Except PyErr Int :=
  match chTrim cs0 with
  | '-' :: ds =>
    if pyDigits ds then
      .ok (-(digitsVal (ds.filter (fun c => !(c == '_'))) : Int))
    else .error .valueError
  | '+' :: ds =>
    if pyDigits ds then
      .ok (digitsVal (ds.filter (fun c => !(c == '_'))) : Int)
    else .error .valueError
  | ds =>
    if pyDigits ds then
      .ok (digitsVal (ds.filter (fun c => !(c == '_'))) : Int)
    else .error .valueError

/-- Python `int(s)` on a Lean string. -/
def pyInt (s : String) : Except PyErr Int :=
  pyIntList s.data

/-- `pat` occurs as a contiguous substring: Python's `pat in s`. -/
def containsSub (pat : List Char) : List Char → Bool
  | [] => pat.isPrefixOf []
  | c :: rest => pat.isPrefixOf (c :: rest) || containsSub pat rest

/-! ## XML element trees

`xml.etree.ElementTree` elements, with the PAGE namespace prefix baked into
the plain tag name (the source always queries with the same `pc:` mapping).
`ET.fromstring` itself is external library code; a document therefore
enters `_parse_page_xml` as `Except ParseError Element`, the outcome of
that call. -/

/-- An XML element: tag, attributes in document order, child elements in
document order, and directly contained text. -/
inductive Element where
  | mk (tag : String) (attrs : List (String × String))
       (children : List Element) (text : Option String)

/-- Failure of `ET.fromstring` on malformed XML. -/
inductive ParseError where
  | malformed
deriving DecidableEq

def Element.tag : Element → String
  | .mk t _ _ _ => t

def Element.attrs : Element → List (String × String)
  | .mk _ a _ _ => a

def Element.children : Element → List Element
  | .mk _ _ c _ => c

def Element.text : Element → Option String
  | .mk _ _ _ t => t

/-- `element.get(name)`: first attribute with the given name. -/
def Element.get (e : Element) (name : String) : Option String :=
  (e.attrs.find? (fun p => p.1 == name)).map (·.2)

/-- Direct children with a given tag, in document order:
`element.findall("pc:T", ns)`. -/
def Element.childrenWithTag (e : Element) (t : String) : List Element :=
  e.children.filter (fun c => c.tag == t)

/-- First direct child with a given tag: `element.find("pc:T", ns)`. -/
def Element.findChild (e : Element) (t : String) : Option Element :=
  e.children.find? (fun c => c.tag == t)

mutual

/-- All proper descendants of an element, in document order. -/
def Element.descendants : Element → List Element
  | .mk _ _ cs _ => descList cs

/-- Descendants-with-self of every element of a list, in document order. -/
def descList : List Element → List Element
  | [] => []
  | c :: rest => c :: c.descendants ++ descList rest

end

/-- `element.findall(".//pc:T", ns)`: all descendants with the tag, in
document order. -/
def Element.findAllDesc (e : Element) (t : String) : List Element :=
  e.descendants.filter (fun c => c.tag == t)

/-- `element.find(".//pc:T", ns)`: first descendant with the tag. -/
def Element.findDesc (e : Element) (t : String) : Option Element :=
  e.descendants.find? (fun c => c.tag == t)

/-! ## Parsed data model (`parser.py` dataclasses) -/

/-- `TextLine`: a text line in the PAGE XML. -/
structure TextLine where
  id : String
  text : Option String
  coords : List (Int × Int)
  baseline : Option (List (Int × Int))
  reading_order : Int
  region_id : String

/-- `TextRegion`: a text region in the PAGE XML. -/
structure TextRegion where
  id : String
  type : String
  coords : List (Int × Int)
  text_lines : List TextLine
  reading_order : Int
  full_text : Option String

/-- `PageData`: a complete page with metadata and content. -/
structure PageData where
  image_filename : String
  image_width : Int
  image_height : Int
  image_url : Option String
  regions : List TextRegion
  xml_content : String
  project_name : String

/-! ## XmlParser methods -/

/-- `int(element.get(name, 0))`: Python's attribute read whose default is
the integer `0` (so `int(0) = 0` when the attribute is absent), and whose
present value goes through `int(str)` and can raise `ValueError`. -/
def pyIntAttr : Option String → Except PyErr Int
  | none => .ok 0
  | some s => pyInt s

/-- Python dict assignment `d[k] = v`: overwrite in place or append. -/
def dictInsert (d : List (String × Int)) (k : String) (v : Int) :
    List (String × Int) :=
  if d.any (fun p => p.1 == k) then
    d.map (fun p => if p.1 == k then (k, v) else p)
  else d ++ [(k, v)]

/-- Python `d.get(k, dflt)`. -/
def dictGetD (d : List (String × Int)) (k : String) (dflt : Int) : Int :=
  ((d.find? (fun p => p.1 == k)).map (·.2)).getD dflt

/-- Loop body sequence of `XmlParser._parse_reading_order`: builds the
region-id → index table from `RegionRefIndexed` descendants. -/
def readingOrderLoop : List Element → List (String × Int) →
    Except PyErr (List (String × Int))
  | [], acc => .ok acc
  | rr :: rest, acc =>
    let region_id := (rr.get "regionRef").getD ""
    match pyIntAttr (rr.get "index") with
    | .error e => .error e
    | .ok index => readingOrderLoop rest (dictInsert acc region_id index)

/-- `XmlParser._parse_reading_order`. -/
def _parse_reading_order (root : Element) : Except PyErr (List (String × Int)) :=
  match root.findDesc "ReadingOrder" with
  | none => .ok []
  | some ro_elem => readingOrderLoop (ro_elem.findAllDesc "RegionRefIndexed") []

/-- Loop of `XmlParser._parse_coords`: tokens without a comma are skipped;
a token with a comma is unpacked as `x, y = point.split(",")` (raising
`ValueError` unless there are exactly two fields) and both fields go
through `int`. -/
def coordsLoop : List (List Char) → List (Int × Int) →
    Except PyErr (List (Int × Int))
  | [], acc => .ok acc
  | tok :: rest, acc =>
    if tok.contains ',' then
      match chSplitOn ',' tok with
      | [xs, ys] =>
        match pyIntList xs with
        | .error e => .error e
        | .ok x =>
          match pyIntList ys with
          | .error e => .error e
          | .ok y => coordsLoop rest (acc ++ [(x, y)])
      | _ => .error .valueError
    else coordsLoop rest acc

/-- `XmlParser._parse_coords`. -/
def _parse_coords : Option Element → Except PyErr (List (Int × Int))
  | none => .ok []
  | some el =>
    let points_str := (el.get "points").getD ""
    if points_str = "" then .ok []
    else coordsLoop (chWords points_str.data) []

/-- `XmlParser._get_text_equiv`: text of the first `TextEquiv/Unicode`
descendant path, but only when that text is truthy (non-`None`,
non-empty). -/
def _get_text_equiv (e : Element) : Option String :=
  match ((e.childrenWithTag "TextEquiv").flatMap
      (fun te => te.childrenWithTag "Unicode")).head? with
  | some u =>
    match u.text with
    | some t => if t = "" then none else some t
    | none => none
  | none => none

/-! ### The reading-order regex

`re.search(r"readingOrder\s*\{\s*index\s*:\s*(\d+)", custom)`.  Every
pattern piece is a literal, `\s*`, or the final greedy `(\d+)`; since the
character after each `\s*` is never itself whitespace, maximal munch is
exact and no backtracking arises. -/

/-- Consume a literal at the front of the input. -/
def litMatch : List Char → List Char → Option (List Char)
  | [], rest => some rest
  | _ :: _, [] => none
  | p :: ps, c :: cs => if c == p then litMatch ps cs else none

/-- `\s*`: drop leading whitespace. -/
def dropWs (cs : List Char) : List Char :=
  cs.dropWhile isPyWs

/-- Attempt the reading-order pattern at this exact position; on success
produce the value of the captured digit group. -/
def roMatchAt (cs : List Char) : Option Nat :=
  match litMatch "readingOrder".data cs with
  | none => none
  | some r1 =>
    match litMatch [Char.ofNat 123] (dropWs r1) with
    | none => none
    | some r2 =>
      match litMatch "index".data (dropWs r2) with
      | none => none
      | some r3 =>
        match litMatch [':'] (dropWs r3) with
        | none => none
        | some r4 =>
          let ds := (dropWs r4).takeWhile Char.isDigit
          if ds.isEmpty then none else some (digitsVal ds)

/-- `re.search`: leftmost position where the pattern matches. -/
def roSearch : List Char → Option Nat
  | [] => none
  | c :: rest =>
    match roMatchAt (c :: rest) with
    | some n => some n
    | none => roSearch rest

/-- `XmlParser._extract_reading_order_from_custom`. -/
def _extract_reading_order_from_custom (el : Element) : Int :=
  let custom := (el.get "custom").getD ""
  if containsSub "readingOrder".data custom.data then
    match roSearch custom.data with
    | some n => (n : Int)
    | none => 0
  else 0

/-- The behaviour the spec states for reading-order extraction: the
captured integer of the (leftmost) pattern match, else 0. -/
def readingOrderSpec (custom : String) : Int :=
  match roSearch custom.data with
  | some n => (n : Int)
  | none => 0

/-! ### Stable sort

`list.sort(key=...)` is documented stable; a stable sort by a total key is
uniquely determined by sortedness plus stability, so any stable sort gives
the same list.  We model it with a stable insertion sort. -/

/-- Insert `a` into `l` before the first element whose key is `≥ key a`
(so among equal keys, previously inserted — i.e. earlier — elements stay
in front). -/
def stableInsert (key : α → Int) (a : α) : List α → List α
  | [] => [a]
  | b :: bs => if key a ≤ key b then a :: b :: bs else b :: stableInsert key a bs

/-- `list.sort(key=...)`: the stable sort by an integer key. -/
def pySortByKey (key : α → Int) : List α → List α
  | [] => []
  | x :: xs => stableInsert key x (pySortByKey key xs)

/-! ### Regions and lines -/

/-- Body of the `TextLine` loop of `XmlParser._parse_text_lines`. -/
def buildLine (region_id : String) (line_elem : Element) : Except PyErr TextLine :=
  let line_id := (line_elem.get "id").getD ""
  match _parse_coords (line_elem.findChild "Coords") with
  | .error e => .error e
  | .ok coords =>
    match
      (match line_elem.findChild "Baseline" with
       | some be => Except.map some (_parse_coords (some be))
       | none => .ok none) with
    | .error e => .error e
    | .ok baseline =>
      let text := _get_text_equiv line_elem
      let reading_order := _extract_reading_order_from_custom line_elem
      .ok { id := line_id, text := text, coords := coords, baseline := baseline,
            reading_order := reading_order, region_id := region_id }

/-- The `for line_elem in ...findall("pc:TextLine")` append loop of
`XmlParser._parse_text_lines`. -/
def linesLoop (region_id : String) : List Element → Except PyErr (List TextLine)
  | [] => .ok []
  | line_elem :: rest =>
    match buildLine region_id line_elem with
    | .error e => .error e
    | .ok ln =>
      match linesLoop region_id rest with
      | .error e => .error e
      | .ok lns => .ok (ln :: lns)

/-- The `lines` list of `XmlParser._parse_text_lines` just before its final
`lines.sort(...)`, i.e. in document order. -/
def buildLines (region_elem : Element) (region_id : String) :
    Except PyErr (List TextLine) :=
  linesLoop region_id (region_elem.childrenWithTag "TextLine")

/-- `XmlParser._parse_text_lines`: document-order lines, then the stable
sort by reading order. -/
def _parse_text_lines (region_elem : Element) (region_id : String) :
    Except PyErr (List TextLine) :=
  Except.map (pySortByKey (fun ln => ln.reading_order))
    (buildLines region_elem region_id)

/-- Body of the `TextRegion` loop of `XmlParser._parse_text_regions`. -/
def buildRegion (reading_order : List (String × Int)) (region_elem : Element) :
    Except PyErr TextRegion :=
  let region_id := (region_elem.get "id").getD ""
  let region_type := (region_elem.get "type").getD "paragraph"
  match _parse_coords (region_elem.findChild "Coords") with
  | .error e => .error e
  | .ok coords =>
    match _parse_text_lines region_elem region_id with
    | .error e => .error e
    | .ok text_lines =>
      let full_text := _get_text_equiv region_elem
      let region_reading_order := dictGetD reading_order region_id 0
      .ok { id := region_id, type := region_type, coords := coords,
            text_lines := text_lines, reading_order := region_reading_order,
            full_text := full_text }

/-- The `for region_elem in root.findall(".//pc:TextRegion")` append loop
of `XmlParser._parse_text_regions`. -/
def regionsLoop (reading_order : List (String × Int)) :
    List Element → Except PyErr (List TextRegion)
  | [] => .ok []
  | region_elem :: rest =>
    match buildRegion reading_order region_elem with
    | .error e => .error e
    | .ok r =>
      match regionsLoop reading_order rest with
      | .error e => .error e
      | .ok rs => .ok (r :: rs)

/-- The `regions` list of `XmlParser._parse_text_regions` just before its
final `regions.sort(...)`, i.e. in document order. -/
def buildRegions (root : Element) (reading_order : List (String × Int)) :
    Except PyErr (List TextRegion) :=
  regionsLoop reading_order (root.findAllDesc "TextRegion")

/-- `XmlParser._parse_text_regions`: document-order regions, then the
stable sort by reading order. -/
def _parse_text_regions (root : Element) (reading_order : List (String × Int)) :
    Except PyErr (List TextRegion) :=
  Except.map (pySortByKey (fun r => r.reading_order))
    (buildRegions root reading_order)

/-- `XmlParser._parse_imgurl`.  (Called only after a `Page` child has been
found; the `none` fallbacks for a missing `Page` are unreachable there.) -/
def _parse_imgurl (root : Element) : Option String :=
  let fromMeta := (root.findDesc "TranskribusMetadata").bind (fun m => m.get "imgUrl")
  match fromMeta with
  | some u =>
    if u = "" then (root.findChild "Page").bind (fun p => p.get "imageURL")
    else some u
  | none => (root.findChild "Page").bind (fun p => p.get "imageURL")

/-- `XmlParser._parse_page_xml`.  The outcome of `ET.fromstring` is the
`Except ParseError Element` argument: the `try` block catches exactly
`ET.ParseError` (returning `None`), while any `ValueError` raised by the
`int(...)` attribute reads inside the block propagates to the caller. -/
def _parse_page_xml (parsed : Except ParseError Element)
    (xml_content project_name : String) : Except PyErr (Option PageData) :=
  match parsed with
  | .error _ => .ok none
  | .ok root =>
    match root.findChild "Page" with
    | none => .ok none
    | some page_elem =>
      let image_filename := (page_elem.get "imageFilename").getD ""
      match pyIntAttr (page_elem.get "imageWidth") with
      | .error e => .error e
      | .ok image_width =>
        match pyIntAttr (page_elem.get "imageHeight") with
        | .error e => .error e
        | .ok image_height =>
          let image_url := _parse_imgurl root
          match _parse_reading_order root with
          | .error e => .error e
          | .ok reading_order =>
            match _parse_text_regions root reading_order with
            | .error e => .error e
            | .ok regions =>
              .ok (some { image_filename := image_filename,
                          image_width := image_width,
                          image_height := image_height,
                          image_url := image_url, regions := regions,
                          xml_content := xml_content,
                          project_name := project_name })

/-! ## Encoding resolver (`XmlParser._decode_bytes`)

Bytes are `List Nat` (each `< 256` for genuine Python `bytes`); decoded
text is the list of Unicode code points.  The codecs the source names are
implemented; `chardet.detect` and the decode under whatever encoding name
it suggests are external, so they enter as oracle parameters. -/

/-- A UTF-8 continuation byte. -/
def isContByte (b : Nat) : Bool :=
  128 ≤ b && b < 192

/-- Strict UTF-8 decoding (Python `bytes.decode("utf-8")`): rejects
overlong forms, surrogates, code points above U+10FFFF, and truncated
sequences. -/
def utf8Decode : List Nat → Option (List Nat)
  | [] => some []
  | b :: rest =>
    if b < 128 then (utf8Decode rest).map (b :: ·)
    else if b < 194 then none
    else if b < 224 then
      match rest with
      | b2 :: rest2 =>
        if isContByte b2 then
          (utf8Decode rest2).map (((b - 192) * 64 + (b2 - 128)) :: ·)
        else none
      | [] => none
    else if b < 240 then
      match rest with
      | b2 :: b3 :: rest3 =>
        let cp := (b - 224) * 4096 + (b2 - 128) * 64 + (b3 - 128)
        if isContByte b2 && isContByte b3 && decide (2048 ≤ cp) &&
            !(decide (55296 ≤ cp) && decide (cp ≤ 57343)) then
          (utf8Decode rest3).map (cp :: ·)
        else none
      | _ => none
    else if b < 245 then
      match rest with
      | b2 :: b3 :: b4 :: rest4 =>
        let cp := (b - 240) * 262144 + (b2 - 128) * 4096 + (b3 - 128) * 64 + (b4 - 128)
        if isContByte b2 && isContByte b3 && isContByte b4 &&
            decide (65536 ≤ cp) && decide (cp ≤ 1114111) then
          (utf8Decode rest4).map (cp :: ·)
        else none
      | _ => none
    else none

/-- `bytes.decode("latin-1")`: every byte value is a code point; total on
genuine bytes. -/
def latin1Decode (raw : List Nat) : Option (List Nat) :=
  if raw.all (fun b => b < 256) then some raw else none

/-- The cp1252 value of one byte; `none` for the five unassigned bytes,
on which Python's `decode("cp1252")` raises. -/
def cp1252Map (b : Nat) : Option Nat :=
  if b < 128 then some b
  else if b == 129 || b == 141 || b == 143 || b == 144 || b == 157 then none
  else if b == 128 then some 8364
  else if b == 130 then some 8218
  else if b == 131 then some 402
  else if b == 132 then some 8222
  else if b == 133 then some 8230
  else if b == 134 then some 8224
  else if b == 135 then some 8225
  else if b == 136 then some 710
  else if b == 137 then some 8240
  else if b == 138 then some 352
  else if b == 139 then some 8249
  else if b == 140 then some 338
  else if b == 142 then some 381
  else if b == 145 then some 8216
  else if b == 146 then some 8217
  else if b == 147 then some 8220
  else if b == 148 then some 8221
  else if b == 149 then some 8226
  else if b == 150 then some 8211
  else if b == 151 then some 8212
  else if b == 152 then some 732
  else if b == 153 then some 8482
  else if b == 154 then some 353
  else if b == 155 then some 8250
  else if b == 156 then some 339
  else if b == 158 then some 382
  else if b == 159 then some 376
  else if b < 256 then some b
  else none

/-- `bytes.decode("cp1252")`. -/
def cp1252Decode (raw : List Nat) : Option (List Nat) :=
  raw.mapM cp1252Map

/-- `bytes.decode("iso-8859-1")`: the same total single-byte map as
latin-1. -/
def iso88591Decode (raw : List Nat) : Option (List Nat) :=
  latin1Decode raw

/-- `XmlParser._decode_bytes`.  `detected` is the `chardet.detect` result
(suggested encoding name with its confidence, or nothing);
`decodeDetected enc` is the outcome of `raw_content.decode(enc)` for the
suggested name, `none` when that decode raises (`UnicodeDecodeError` or
`LookupError`). -/
def _decode_bytes (detected : Option (String × ℚ))
    (decodeDetected : String → Option (List Nat)) (raw : List Nat) :
    Option (List Nat) :=
  match utf8Decode raw with
  | some s => some s
  | none =>
    match
      (match detected with
       | some (enc, confidence) =>
         if 7 / 10 < confidence then decodeDetected enc else none
       | none => none) with
    | some s => some s
    | none =>
      match latin1Decode raw with
      | some s => some s
      | none =>
        match cp1252Decode raw with
        | some s => some s
        | none =>
          match iso88591Decode raw with
          | some s => some s
          | none => none

/-- First defined value in a list of attempts. -/
def firstSome : List (Option α) → Option α
  | [] => none
  | o :: rest =>
    match o with
    | some s => some s
    | none => firstSome rest

/-- The decoding order as the spec words it: strict UTF-8; the detected
encoding if its confidence exceeds 0.7; then latin-1, cp1252, iso-8859-1;
`none` only if every attempt fails. -/
def decodeSpec (detected : Option (String × ℚ))
    (decodeDetected : String → Option (List Nat)) (raw : List Nat) :
    Option (List Nat) :=
  firstSome
    [utf8Decode raw,
     (match detected with
      | some (enc, confidence) =>
        if 7 / 10 < confidence then decodeDetected enc else none
      | none => none),
     latin1Decode raw, cp1252Decode raw, iso88591Decode raw]

/-! ## Geometry: `BaseExporter._crop_region`

The image is abstracted to its pixel dimensions and the produced crop to
its clamped bounding box `(min_x, min_y, max_x, max_y)`; the PIL/cv2 pixel
work on a valid box is external and cannot affect the control flow
modelled here (the `mask` flag only changes pixel content).  The second
component of the result is the increment applied to `skipped_count`. -/

/-- `min` of a non-empty Python list (first element seeds the fold). -/
def listMin : List Int → Int
  | [] => 0
  | x :: xs => xs.foldl min x

/-- `max` of a non-empty Python list. -/
def listMax : List Int → Int
  | [] => 0
  | x :: xs => xs.foldl max x

/-- The axis-aligned bounding box of the polygon clamped to the image
bounds, as `(min_x, min_y, max_x, max_y)`. -/
def clampedBox (width height : Nat) (coords : List (Int × Int)) :
    Int × Int × Int × Int :=
  let xs := coords.map (fun p => p.1)
  let ys := coords.map (fun p => p.2)
  (max 0 (listMin xs), max 0 (listMin ys),
   min (width : Int) (listMax xs), min (height : Int) (listMax ys))

/-- Python truthiness of `min_width and int(max_x - min_x) < min_width`:
both `None` and `0` are falsy, so the comparison only fires for a present
non-zero minimum width. -/
def minWidthRejects (min_width : Option Int) (box_width : Int) : Bool :=
  match min_width with
  | some w => !(w == 0) && decide (box_width < w)
  | none => false

/-- `BaseExporter._crop_region`. -/
def _crop_region (width height : Nat) (coords : List (Int × Int))
    (min_width : Option Int) : Option (Int × Int × Int × Int) × Nat :=
  if coords.isEmpty then (none, 1)
  else
    let xs := coords.map (fun p => p.1)
    let ys := coords.map (fun p => p.2)
    let min_x := max 0 (listMin xs)
    let max_x := min (width : Int) (listMax xs)
    let min_y := max 0 (listMin ys)
    let max_y := min (height : Int) (listMax ys)
    if max_x ≤ min_x ∨ max_y ≤ min_y then (none, 1)
    else
      if minWidthRejects min_width (max_x - min_x) then (none, 1)
      else (some (min_x, min_y, max_x, max_y), 0)

/-! ## `TextExporter.export` text field -/

/-- The `text` field `TextExporter.export` emits for a page:
`"\n".join([region.full_text for region in page.regions if region.full_text])`,
where the `if` is Python truthiness (both `None` and `""` fail it). -/
def textExportText (page : PageData) : String :=
  String.intercalate "\n"
    (page.regions.filterMap (fun r =>
      match r.full_text with
      | some t => if t = "" then none else some t
      | none => none))

/-- The claim's reading of the same field: the newline-join of exactly the
non-null `full_text` values, keeping empty strings. -/
def joinNonNullTexts (page : PageData) : String :=
  String.intercalate "\n" (page.regions.filterMap (fun r => r.full_text))

/-! ## `WindowExporter._create_windows`

The `for i in range(0, len(lines), step)` loop advances `i` by `step ≥ 1`
(the constructor rejects `overlap ≥ window_size`), so it runs at most
`len(lines)` iterations; the fuel `len(lines) + 1` therefore never runs
out on the claim's domain. -/

/-- One loop state of `_create_windows`: at index `i`, while `i` is still
inside the range, slice the window, append it if non-empty, and stop after
the window whose start satisfies `i + window_size ≥ len(lines)`. -/
def windowsGo (window_size step n : Nat) (lines : List α) :
    Nat → Nat → List (List α)
  | 0, _ => []
  | fuel + 1, i =>
    if i < n then
      let w := (lines.drop i).take window_size
      let emitted := if 0 < w.length then [w] else []
      if n ≤ i + window_size then emitted
      else emitted ++ windowsGo window_size step n lines fuel (i + step)
    else []

/-- `WindowExporter._create_windows`. -/
def _create_windows (window_size overlap : Nat) (lines : List α) :
    List (List α) :=
  if lines.isEmpty then []
  else
    windowsGo window_size (window_size - overlap) lines.length lines
      (lines.length + 1) 0

/-- The windows exactly as the claim describes them: starting at 0 and
advancing by `step`, each window is the slice of up to `window_size` lines
at the current start (partial trailing window included), and the window
formed at the first start with `start + window_size ≥ len(lines)` is the
last one emitted. -/
def specWindowsGo (window_size step n : Nat) (lines : List α) :
    Nat → Nat → List (List α)
  | 0, _ => []
  | fuel + 1, s =>
    let w := (lines.drop s).take window_size
    if n ≤ s + window_size then [w]
    else w :: specWindowsGo window_size step n lines fuel (s + step)

/-- The claim's description of the whole segmentation: zero windows for an
empty list, else the window sequence from start index 0. -/
def specWindows (window_size overlap : Nat) (lines : List α) :
    List (List α) :=
  if lines.isEmpty then []
  else
    specWindowsGo window_size (window_size - overlap) lines.length lines
      (lines.length + 1) 0

/-! ## Claim-side characterizations -/

/-- A comma-split of a points token is well formed when it has exactly two
fields and both parse as Python ints. -/
def pairOk : List (List Char) → Bool
  | [xs, ys] =>
    (match pyIntList xs, pyIntList ys with
     | .ok _, .ok _ => true
     | _, _ => false)
  | _ => false

/-- The integer pair a well-formed comma-split denotes. -/
def pairVal : List (List Char) → Option (Int × Int)
  | [xs, ys] =>
    (match pyIntList xs, pyIntList ys with
     | .ok x, .ok y => some (x, y)
     | _, _ => none)
  | _ => none

/-- A points token the coordinate loop handles without raising: either it
has no comma (it is skipped), or it splits on commas into exactly two
fields that both parse as Python ints. -/
def tokOk (tok : List Char) : Bool :=
  !tok.contains ',' || pairOk (chSplitOn ',' tok)

/-- The coordinate pair a points token contributes, if any. -/
def tokVal (tok : List Char) : Option (Int × Int) :=
  if tok.contains ',' then pairVal (chSplitOn ',' tok) else none

/-- The claim's failure condition for the bounding-box crop: empty
polygon, degenerate clamped box (zero or negative width or height), or a
configured minimum width the box width falls below. -/
def cropFails (width height : Nat) (coords : List (Int × Int))
    (min_width : Option Int) : Prop :=
  coords = [] ∨
  min (width : Int) (listMax (coords.map (fun pt => pt.1)))
    ≤ max 0 (listMin (coords.map (fun pt => pt.1))) ∨
  min (height : Int) (listMax (coords.map (fun pt => pt.2)))
    ≤ max 0 (listMin (coords.map (fun pt => pt.2))) ∨
  (match min_width with
   | some w =>
     min (width : Int) (listMax (coords.map (fun pt => pt.1)))
       - max 0 (listMin (coords.map (fun pt => pt.1))) < w
   | none => False)

instance (width height : Nat) (coords : List (Int × Int)) (min_width : Option Int) :
    Decidable (cropFails width height coords min_width) := by
  unfold cropFails
  cases min_width with
  | none => exact inferInstance
  | some w => exact inferInstance

/-! ## Concrete documents used as counterexamples and witnesses -/

/-- A well-formed document whose `Page` carries a non-numeric
`imageWidth`. -/
def widthAbcDoc : Element :=
  .mk "root" [] [.mk "Page" [("imageWidth", "abc")] [] none] none

/-- A well-formed document whose `Page` has no size attributes. -/
def bareDoc : Element :=
  .mk "root" [] [.mk "Page" [] [] none] none

/-- The page `bareDoc` parses to. -/
def barePage : PageData :=
  { image_filename := "", image_width := 0, image_height := 0,
    image_url := none, regions := [], xml_content := "x",
    project_name := "p" }

/-- A `Coords` element whose points attribute holds a comma token with
non-numeric components. -/
def badCoordsElem : Element :=
  .mk "Coords" [("points", "a,b")] [] none

/-- A document with a single region whose polygon has exactly one
point. -/
def onePointDoc : Element :=
  .mk "root" []
    [.mk "Page" []
      [.mk "TextRegion" [("id", "r1")]
        [.mk "Coords" [("points", "1,2")] [] none] none] none] none

/-- A document with a single region whose polygon has exactly two
points. -/
def twoPointDoc : Element :=
  .mk "root" []
    [.mk "Page" []
      [.mk "TextRegion" [("id", "r1")]
        [.mk "Coords" [("points", "1,2 3,4")] [] none] none] none] none

/-- The page `onePointDoc` parses to. -/
def onePointPage : PageData :=
  { image_filename := "", image_width := 0, image_height := 0,
    image_url := none,
    regions := [{ id := "r1", type := "paragraph", coords := [(1, 2)],
                  text_lines := [], reading_order := 0, full_text := none }],
    xml_content := "x", project_name := "p" }

/-- The page `twoPointDoc` parses to. -/
def twoPointPage : PageData :=
  { image_filename := "", image_width := 0, image_height := 0,
    image_url := none,
    regions := [{ id := "r1", type := "paragraph", coords := [(1, 2), (3, 4)],
                  text_lines := [], reading_order := 0, full_text := none }],
    xml_content := "x", project_name := "p" }

/-- A region record as the parser builds it for a bare `TextRegion`
element with the given id and reading order. -/
def bareRegion (i : String) (ro : Int) : TextRegion :=
  { id := i, type := "paragraph", coords := [], text_lines := [],
    reading_order := ro, full_text := none }

/-- Three bare regions in document order `r1, r2, r3`. -/
def threeRegionRoot : Element :=
  .mk "root" []
    [.mk "TextRegion" [("id", "r1")] [] none,
     .mk "TextRegion" [("id", "r2")] [] none,
     .mk "TextRegion" [("id", "r3")] [] none] none

/-- A reading-order table placing `r1` last and tying `r2` with `r3`. -/
def threeRegionRo : List (String × Int) :=
  [("r1", 1), ("r2", 0), ("r3", 0)]

/-- A region element with one line carrying a `custom` reading order. -/
def lineRegionElem : Element :=
  .mk "TextRegion" [("id", "r1")]
    [.mk "TextLine" [("id", "l2"), ("custom", "readingOrder \x7bindex:1\x7d")] [] none,
     .mk "TextLine" [("id", "l1"), ("custom", "readingOrder \x7bindex:0\x7d")] [] none]
    none

/-- A hand-built page carrying an empty-string `full_text` (a value the
parser itself never produces, since its text lookup filters falsy text):
it separates Python truthiness from the null-only skip the claim
states. -/
def emptyTextPage : PageData :=
  { image_filename := "f", image_width := 0, image_height := 0,
    image_url := none,
    regions :=
      [{ id := "r1", type := "paragraph", coords := [], text_lines := [],
         reading_order := 0, full_text := some "A" },
       { id := "r2", type := "paragraph", coords := [], text_lines := [],
         reading_order := 1, full_text := some "" }],
    xml_content := "", project_name := "p" }

/-- A document with two annotated regions, at reading order 1 (text "B",
first in document order) and reading order 0 (text "A"). -/
def twoRegionDoc : Element :=
  .mk "root" []
    [.mk "Page" []
      [.mk "ReadingOrder" []
        [.mk "OrderedGroup" []
          [.mk "RegionRefIndexed" [("regionRef", "r1"), ("index", "1")] [] none,
           .mk "RegionRefIndexed" [("regionRef", "r2"), ("index", "0")] [] none]
          none] none,
       .mk "TextRegion" [("id", "r1")]
        [.mk "TextEquiv" [] [.mk "Unicode" [] [] (some "B")] none] none,
       .mk "TextRegion" [("id", "r2")]
        [.mk "TextEquiv" [] [.mk "Unicode" [] [] (some "A")] none] none]
      none] none

/-- The page `twoRegionDoc` parses to: regions sorted to reading order
0 then 1. -/
def twoRegionPage : PageData :=
  { image_filename := "", image_width := 0, image_height := 0,
    image_url := none,
    regions :=
      [{ id := "r2", type := "paragraph", coords := [], text_lines := [],
         reading_order := 0, full_text := some "A" },
       { id := "r1", type := "paragraph", coords := [], text_lines := [],
         reading_order := 1, full_text := some "B" }],
    xml_content := "x", project_name := "p" }

/-! # Theorems -/

/-! ## C1: window segmentation -/

theorem windowsGo_eq_spec {α : Type} (window_size step : Nat) (lines : List α)
    (hws : 1 ≤ window_size) (hstep : step ≤ window_size) :
    ∀ (fuel i : Nat), i < lines.length →
      windowsGo window_size step lines.length lines fuel i
        = specWindowsGo window_size step lines.length lines fuel i := by
  intro fuel
  induction fuel with
  | zero => intro i _; rfl
  | succ fuel ih =>
    intro i hi
    have hw : 0 < ((lines.drop i).take window_size).length := by
      simp only [List.length_take, List.length_drop]
      omega
    have hpos : 0 < window_size := hws
    by_cases hstop : lines.length ≤ i + window_size
    · simp [windowsGo, specWindowsGo, hi, hstop, hw, hpos]
    · have hi' : i + step < lines.length := by omega
      simp [windowsGo, specWindowsGo, hi, hstop, hw, hpos, ih (i + step) hi']

/-- C1: with `window_size ≥ 1` and `0 ≤ overlap < window_size`, the window
segmenter `_create_windows` emits exactly the windows the claim describes:
from start index 0 advancing by `step = window_size - overlap`, each window
is the slice of up to `window_size` consecutive lines, a trailing partial
window is still emitted, iteration stops at the first start index with
`start + window_size ≥ len(lines)`, and an empty line list yields zero
windows. -/
theorem C1_create_windows {α : Type} (window_size overlap : Nat) (lines : List α)
    (hws : 1 ≤ window_size) (hov : overlap < window_size) :
    _create_windows window_size overlap lines
      = specWindows window_size overlap lines := by
  by_cases h : lines.isEmpty
  · simp [_create_windows, specWindows, h]
  · have hne : 0 < lines.length := by
      cases lines with
      | nil => simp at h
      | cons a l => simp
    simp only [_create_windows, specWindows, if_neg h]
    exact windowsGo_eq_spec window_size (window_size - overlap) lines hws
      (by omega) (lines.length + 1) 0 hne

/-- C1 witness: the segmenter at the claim's two worked examples, and at
the empty list. -/
theorem C1_create_windows_witness :
    _create_windows 2 1 [0, 1, 2, 3, 4] = specWindows 2 1 [0, 1, 2, 3, 4] ∧
    _create_windows 2 1 [0, 1, 2, 3, 4] = [[0, 1], [1, 2], [2, 3], [3, 4]] ∧
    _create_windows 3 0 [1, 2, 3, 4, 5, 6, 7] = [[1, 2, 3], [4, 5, 6], [7]] ∧
    _create_windows 2 1 ([] : List Nat) = [] :=
  ⟨C1_create_windows 2 1 [0, 1, 2, 3, 4] (by decide) (by decide),
   by decide, by decide, rfl⟩

/-! ## C5: stable reading-order sort -/

theorem mem_stableInsert (key : α → Int) (a x : α) (l : List α) :
    x ∈ stableInsert key a l ↔ x = a ∨ x ∈ l := by
  induction l with
  | nil => simp [stableInsert]
  | cons b bs ih =>
    by_cases h : key a ≤ key b
    · simp only [stableInsert, if_pos h, List.mem_cons]
    · simp only [stableInsert, if_neg h, List.mem_cons, ih]
      tauto

theorem pairwise_stableInsert (key : α → Int) (a : α) (l : List α)
    (h : l.Pairwise (fun x y => key x ≤ key y)) :
    (stableInsert key a l).Pairwise (fun x y => key x ≤ key y) := by
  induction l with
  | nil => simp [stableInsert]
  | cons b bs ih =>
    rw [List.pairwise_cons] at h
    obtain ⟨hb, hbs⟩ := h
    by_cases hab : key a ≤ key b
    · simp only [stableInsert, if_pos hab]
      refine List.Pairwise.cons ?_ (List.Pairwise.cons hb hbs)
      intro y hy
      rcases List.mem_cons.mp hy with rfl | hy'
      · exact hab
      · exact le_trans hab (hb y hy')
    · simp only [stableInsert, if_neg hab]
      refine List.Pairwise.cons ?_ (ih hbs)
      intro y hy
      rcases (mem_stableInsert key a y bs).mp hy with rfl | hy'
      · exact le_of_lt (lt_of_not_ge hab)
      · exact hb y hy'

theorem pairwise_pySortByKey (key : α → Int) (l : List α) :
    (pySortByKey key l).Pairwise (fun x y => key x ≤ key y) := by
  induction l with
  | nil => simp [pySortByKey]
  | cons x xs ih => exact pairwise_stableInsert key x _ ih

theorem mem_pySortByKey (key : α → Int) (x : α) (l : List α) :
    x ∈ pySortByKey key l ↔ x ∈ l := by
  induction l with
  | nil => simp [pySortByKey]
  | cons b bs ih => simp [pySortByKey, mem_stableInsert, ih]

theorem filter_stableInsert (key : α → Int) (k : Int) (a : α) (l : List α) :
    (stableInsert key a l).filter (fun x => key x == k)
      = if key a == k then a :: l.filter (fun x => key x == k)
        else l.filter (fun x => key x == k) := by
  induction l with
  | nil =>
    by_cases hk : (key a == k) = true
    · simp [stableInsert, List.filter, hk]
    · simp [stableInsert, List.filter, hk]
  | cons b bs ih =>
    by_cases hab : key a ≤ key b
    · by_cases hk : (key a == k) = true
      · simp [stableInsert, if_pos hab, List.filter_cons, hk]
      · simp [stableInsert, if_pos hab, List.filter_cons, hk]
    · have hba : key b < key a := lt_of_not_ge hab
      by_cases hk : (key a == k) = true
      · have hbk : (key b == k) = false := by
          rw [beq_iff_eq] at hk
          rw [beq_eq_false_iff_ne]
          omega
        simp [stableInsert, if_neg hab, List.filter_cons, ih, hk, hbk]
      · simp [stableInsert, if_neg hab, List.filter_cons, ih, hk]

theorem filter_pySortByKey (key : α → Int) (k : Int) (l : List α) :
    (pySortByKey key l).filter (fun x => key x == k)
      = l.filter (fun x => key x == k) := by
  induction l with
  | nil => rfl
  | cons x xs ih =>
    simp only [pySortByKey, filter_stableInsert, ih, List.filter_cons]

/-- C5: the regions of a parsed document are sorted by reading-order index
ascending and the lines within each region likewise, and both sorts are
stable: for every reading-order value `k`, the regions (resp. lines) with
that value appear in the output exactly in their document order (the
filter over the pre-sort, document-order list is unchanged). -/
theorem C5_stable_reading_order_sort :
    (∀ (root : Element) (ro : List (String × Int)) (regions : List TextRegion),
      _parse_text_regions root ro = .ok regions →
        regions.Pairwise (fun a b => a.reading_order ≤ b.reading_order) ∧
        ∀ built, buildRegions root ro = .ok built →
          ∀ k : Int, regions.filter (fun r => r.reading_order == k)
            = built.filter (fun r => r.reading_order == k)) ∧
    (∀ (region_elem : Element) (region_id : String) (lines : List TextLine),
      _parse_text_lines region_elem region_id = .ok lines →
        lines.Pairwise (fun a b => a.reading_order ≤ b.reading_order) ∧
        ∀ built, buildLines region_elem region_id = .ok built →
          ∀ k : Int, lines.filter (fun ln => ln.reading_order == k)
            = built.filter (fun ln => ln.reading_order == k)) := by
  constructor
  · intro root ro regions h
    unfold _parse_text_regions at h
    cases hb : buildRegions root ro with
    | error e => rw [hb] at h; exact Except.noConfusion h
    | ok us =>
      rw [hb] at h
      have hr : regions = pySortByKey (fun r => r.reading_order) us :=
        (Except.ok.inj h).symm
      subst hr
      refine ⟨pairwise_pySortByKey _ _, ?_⟩
      intro built hbuilt k
      have hbu : us = built := Except.ok.inj hbuilt
      subst hbu
      exact filter_pySortByKey _ k us
  · intro region_elem region_id lines h
    unfold _parse_text_lines at h
    cases hb : buildLines region_elem region_id with
    | error e => rw [hb] at h; exact Except.noConfusion h
    | ok us =>
      rw [hb] at h
      have hr : lines = pySortByKey (fun ln => ln.reading_order) us :=
        (Except.ok.inj h).symm
      subst hr
      refine ⟨pairwise_pySortByKey _ _, ?_⟩
      intro built hbuilt k
      have hbu : us = built := Except.ok.inj hbuilt
      subst hbu
      exact filter_pySortByKey _ k us

/-- C5 witness: three regions with reading orders 1, 0, 0 in document
order; the sort puts the two tied regions first, in document order, and
lines with `custom` reading orders 1, 0 are swapped into ascending
order. -/
theorem C5_stable_reading_order_sort_witness :
    ([bareRegion "r2" 0, bareRegion "r3" 0, bareRegion "r1" 1].Pairwise
        (fun a b => a.reading_order ≤ b.reading_order)) ∧
    ([bareRegion "r2" 0, bareRegion "r3" 0, bareRegion "r1" 1].filter
        (fun r => r.reading_order == 0)
      = [bareRegion "r1" 1, bareRegion "r2" 0, bareRegion "r3" 0].filter
        (fun r => r.reading_order == 0)) := by
  have h := C5_stable_reading_order_sort.1 threeRegionRoot threeRegionRo
    [bareRegion "r2" 0, bareRegion "r3" 0, bareRegion "r1" 1] rfl
  exact ⟨h.1, h.2 [bareRegion "r1" 1, bareRegion "r2" 0, bareRegion "r3" 0] rfl 0⟩

/-! ## C9: reading-order extraction -/

theorem litMatch_isPrefixOf (ps : List Char) :
    ∀ cs r, litMatch ps cs = some r → ps.isPrefixOf cs = true := by
  induction ps with
  | nil => intro cs r _; simp [List.isPrefixOf]
  | cons p ps ih =>
    intro cs r h
    cases cs with
    | nil => exact Option.noConfusion h
    | cons c cs' =>
      simp only [litMatch] at h
      by_cases hc : (c == p) = true
      · rw [if_pos hc] at h
        have hcp : c = p := by rwa [beq_iff_eq] at hc
        subst hcp
        simp only [List.isPrefixOf, Bool.and_eq_true, beq_self_eq_true, true_and]
        exact ih cs' r h
      · rw [if_neg hc] at h
        exact Option.noConfusion h

theorem isPrefixOf_containsSub (pat cs : List Char)
    (h : pat.isPrefixOf cs = true) : containsSub pat cs = true := by
  cases cs with
  | nil => simpa [containsSub] using h
  | cons c rest => simp [containsSub, h]

theorem roSearch_containsSub :
    ∀ cs n, roSearch cs = some n → containsSub "readingOrder".data cs = true := by
  intro cs
  induction cs with
  | nil => intro n h; exact Option.noConfusion h
  | cons c rest ih =>
    intro n h
    simp only [roSearch] at h
    cases hm : roMatchAt (c :: rest) with
    | some m =>
      have hpre : ("readingOrder".data).isPrefixOf (c :: rest) = true := by
        unfold roMatchAt at hm
        cases hl : litMatch "readingOrder".data (c :: rest) with
        | none => rw [hl] at hm; exact Option.noConfusion hm
        | some r1 => exact litMatch_isPrefixOf _ _ _ hl
      exact isPrefixOf_containsSub _ _ hpre
    | none =>
      rw [hm] at h
      have hc := ih n h
      simp [containsSub, hc]

/-- C9: for every element, the line reading-order extraction returns the
integer captured by the leftmost match of the
`readingOrder\s*\x7b\s*index\s*:\s*(\d+)` pattern when the custom
attribute contains one, and 0 for every non-matching or absent custom
attribute — the `"readingOrder" in custom` pre-check never changes the
result. -/
theorem C9_reading_order_extraction (el : Element) :
    _extract_reading_order_from_custom el
      = readingOrderSpec ((el.get "custom").getD "") := by
  unfold _extract_reading_order_from_custom readingOrderSpec
  by_cases hc : containsSub "readingOrder".data ((el.get "custom").getD "").data = true
  · simp [hc]
  · rw [if_neg (by simpa using hc)]
    cases hs : roSearch ((el.get "custom").getD "").data with
    | some n => exact absurd (roSearch_containsSub _ n hs) hc
    | none => rfl

/-! ## C6 and C10: encoding resolution -/

/-- C6: `_decode_bytes` realises exactly the spec's attempt order — strict
UTF-8 first, then the detected encoding only when its confidence exceeds
0.7, then latin-1, cp1252, iso-8859-1, with `none` only if every attempt
fails — and any byte string that strict UTF-8 accepts is returned as its
UTF-8 decoding regardless of the detector and of the fallback
encodings. -/
theorem C6_decode_order (detected : Option (String × ℚ))
    (decodeDetected : String → Option (List Nat)) (raw : List Nat) :
    _decode_bytes detected decodeDetected raw
      = decodeSpec detected decodeDetected raw ∧
    ∀ s, utf8Decode raw = some s →
      _decode_bytes detected decodeDetected raw = some s := by
  constructor
  · unfold _decode_bytes decodeSpec
    cases hu : utf8Decode raw with
    | some s => simp [firstSome]
    | none =>
      cases hd : (match detected with
                  | some (enc, confidence) =>
                    if 7 / 10 < confidence then decodeDetected enc else none
                  | none => none) with
      | some s => simp [firstSome]
      | none =>
        cases hl : latin1Decode raw with
        | some s => simp [firstSome]
        | none =>
          cases hc : cp1252Decode raw with
          | some s => simp [firstSome]
          | none => cases hi : iso88591Decode raw with
            | some s => simp [firstSome]
            | none => simp [firstSome]
  · intro s h
    unfold _decode_bytes
    rw [h]

/-- C6 witness: the bytes `C3 A9` are valid UTF-8 for U+00E9 and also
decodable by every fallback encoding (latin-1 would give two code
points), yet the resolver returns the UTF-8 decoding. -/
theorem C6_decode_order_witness :
    _decode_bytes none (fun _ => none) [195, 169]
      = decodeSpec none (fun _ => none) [195, 169] ∧
    _decode_bytes none (fun _ => none) [195, 169] = some [233] :=
  ⟨(C6_decode_order none (fun _ => none) [195, 169]).1,
   (C6_decode_order none (fun _ => none) [195, 169]).2 [233] rfl⟩

/-- C10: on genuine byte strings (every value below 256) the resolver
never returns `none`: latin-1, the first fixed fallback, decodes every
byte sequence, so the final return-`none` branch is unreachable. -/
theorem C10_decode_total (detected : Option (String × ℚ))
    (decodeDetected : String → Option (List Nat)) (raw : List Nat)
    (h : ∀ b ∈ raw, b < 256) :
    _decode_bytes detected decodeDetected raw ≠ none := by
  have hl : latin1Decode raw = some raw := by
    unfold latin1Decode
    rw [if_pos]
    simp only [List.all_eq_true, decide_eq_true_eq]
    exact h
  unfold _decode_bytes
  cases hu : utf8Decode raw with
  | some s => simp
  | none =>
    cases hd : (match detected with
                | some (enc, confidence) =>
                  if 7 / 10 < confidence then decodeDetected enc else none
                | none => none) with
    | some s => simp
    | none => rw [hl]; simp

/-- C10 witness: the single byte `FF` is invalid UTF-8 but decodes under
latin-1. -/
theorem C10_decode_total_witness :
    _decode_bytes none (fun _ => none) [255] ≠ none :=
  C10_decode_total none (fun _ => none) [255] (by decide)

/-! ## C7: bounding-box crop -/

/-- C7: `_crop_region` fails (no image, skip counter incremented by one)
exactly when the polygon is empty, the clamped bounding box is degenerate,
or a configured minimum width exceeds the box width; a polygon lying
entirely outside the image bounds always falls under the degenerate case;
and in every other case it produces the crop at the clamped bounding box
with no skip. -/
theorem C7_crop_region (width height : Nat) (coords : List (Int × Int))
    (min_width : Option Int) :
    (_crop_region width height coords min_width = (none, 1)
      ↔ cropFails width height coords min_width) ∧
    (coords ≠ [] →
      (listMax (coords.map (fun pt => pt.1)) ≤ 0 ∨
       (width : Int) ≤ listMin (coords.map (fun pt => pt.1)) ∨
       listMax (coords.map (fun pt => pt.2)) ≤ 0 ∨
       (height : Int) ≤ listMin (coords.map (fun pt => pt.2))) →
      _crop_region width height coords min_width = (none, 1)) ∧
    (¬ cropFails width height coords min_width →
      _crop_region width height coords min_width
        = (some (clampedBox width height coords), 0)) := by
  unfold _crop_region cropFails clampedBox
  by_cases hemp : coords.isEmpty
  · have hnil : coords = [] := List.isEmpty_iff.mp hemp
    subst hnil
    cases min_width with
    | none => refine ⟨by simp, by simp, by simp⟩
    | some w => refine ⟨by simp, by simp, by simp⟩
  · have hnil : coords ≠ [] := by
      intro hc; rw [hc] at hemp; exact hemp rfl
    simp only [if_neg hemp]
    cases min_width with
    | none =>
      simp only [minWidthRejects, Bool.false_eq_true, if_false]
      refine ⟨?_, ?_, ?_⟩
      · split_ifs with hAB
        · constructor
          · intro _
            rcases hAB with h | h
            · exact Or.inr (Or.inl h)
            · exact Or.inr (Or.inr (Or.inl h))
          · intro _; rfl
        · constructor
          · intro h; simp at h
          · intro h
            rcases h with h | h | h | h
            · exact absurd h hnil
            · exact absurd (Or.inl h) hAB
            · exact absurd (Or.inr h) hAB
            · exact h.elim
      · intro _ hout
        have hAB : min (width : Int) (listMax (coords.map (fun pt => pt.1)))
              ≤ max 0 (listMin (coords.map (fun pt => pt.1))) ∨
            min (height : Int) (listMax (coords.map (fun pt => pt.2)))
              ≤ max 0 (listMin (coords.map (fun pt => pt.2))) := by
          rcases hout with h | h | h | h
          · left; omega
          · left; omega
          · right; omega
          · right; omega
        rw [if_pos hAB]
      · intro hnf
        push_neg at hnf
        obtain ⟨-, hA, hB, -⟩ := hnf
        rw [if_neg]
        intro h
        rcases h with h | h
        · omega
        · omega
    | some w =>
      simp only [minWidthRejects]
      refine ⟨?_, ?_, ?_⟩
      · split_ifs with hAB hw
        · constructor
          · intro _
            rcases hAB with h | h
            · exact Or.inr (Or.inl h)
            · exact Or.inr (Or.inr (Or.inl h))
          · intro _; rfl
        · rw [Bool.and_eq_true, Bool.not_eq_true', beq_eq_false_iff_ne,
            decide_eq_true_eq] at hw
          constructor
          · intro _
            exact Or.inr (Or.inr (Or.inr hw.2))
          · intro _; rfl
        · constructor
          · intro h; simp at h
          · intro h
            rcases h with h | h | h | h
            · exact absurd h hnil
            · exact absurd (Or.inl h) hAB
            · exact absurd (Or.inr h) hAB
            · have hlt : min (width : Int) (listMax (coords.map (fun pt => pt.1)))
                  - max 0 (listMin (coords.map (fun pt => pt.1))) < w := h
              push_neg at hAB
              refine absurd ?_ hw
              rw [Bool.and_eq_true, Bool.not_eq_true', beq_eq_false_iff_ne,
                decide_eq_true_eq]
              exact ⟨by omega, hlt⟩
      · intro _ hout
        have hAB : min (width : Int) (listMax (coords.map (fun pt => pt.1)))
              ≤ max 0 (listMin (coords.map (fun pt => pt.1))) ∨
            min (height : Int) (listMax (coords.map (fun pt => pt.2)))
              ≤ max 0 (listMin (coords.map (fun pt => pt.2))) := by
          rcases hout with h | h | h | h
          · left; omega
          · left; omega
          · right; omega
          · right; omega
        rw [if_pos hAB]
      · intro hnf
        push_neg at hnf
        obtain ⟨-, hA, hB, hW⟩ := hnf
        have hW' : ¬(min (width : Int) (listMax (coords.map (fun pt => pt.1)))
            - max 0 (listMin (coords.map (fun pt => pt.1))) < w) := by omega
        have hAB : ¬(min (width : Int) (listMax (coords.map (fun pt => pt.1)))
              ≤ max 0 (listMin (coords.map (fun pt => pt.1))) ∨
            min (height : Int) (listMax (coords.map (fun pt => pt.2)))
              ≤ max 0 (listMin (coords.map (fun pt => pt.2)))) := by
          intro h
          rcases h with h | h
          · omega
          · omega
        have hw : ¬((!(w == 0) && decide
            (min (width : Int) (listMax (coords.map (fun pt => pt.1)))
              - max 0 (listMin (coords.map (fun pt => pt.1))) < w)) = true) := by
          rw [Bool.and_eq_true, Bool.not_eq_true', beq_eq_false_iff_ne,
            decide_eq_true_eq]
          intro hcontra
          exact hW' hcontra.2
        rw [if_neg hAB, if_neg hw]

/-- C7 witness: a polygon inside a 100×50 image crops to its clamped
bounding box, and a polygon entirely right of a 10×10 image fails with a
skip. -/
theorem C7_crop_region_witness :
    _crop_region 100 50 [(10, 10), (20, 5), (15, 30)] none
      = (some (10, 5, 20, 30), 0) ∧
    _crop_region 10 10 [(20, 3), (25, 7)] none = (none, 1) :=
  ⟨(C7_crop_region 100 50 [(10, 10), (20, 5), (15, 30)] none).2.2 (by decide),
   (C7_crop_region 10 10 [(20, 3), (25, 7)] none).2.1 (by decide) (by decide)⟩

/-! ## C2: malformed XML and page attributes -/

/-- Destructuring a successful `_parse_page_xml` run into the stages the
source performs. -/
theorem parse_page_xml_ok_shape (doc : Element) (s p : String) (pd : PageData)
    (h : _parse_page_xml (.ok doc) s p = .ok (some pd)) :
    ∃ page_elem w hgt ro regions,
      doc.findChild "Page" = some page_elem ∧
      pyIntAttr (page_elem.get "imageWidth") = .ok w ∧
      pyIntAttr (page_elem.get "imageHeight") = .ok hgt ∧
      _parse_reading_order doc = .ok ro ∧
      _parse_text_regions doc ro = .ok regions ∧
      pd = { image_filename := (page_elem.get "imageFilename").getD "",
             image_width := w, image_height := hgt,
             image_url := _parse_imgurl doc, regions := regions,
             xml_content := s, project_name := p } := by
  simp only [_parse_page_xml] at h
  cases hp : doc.findChild "Page" with
  | none =>
    simp only [hp] at h
    exact Option.noConfusion (Except.ok.inj h)
  | some page_elem =>
    simp only [hp] at h
    cases hw : pyIntAttr (page_elem.get "imageWidth") with
    | error e => simp only [hw] at h; exact Except.noConfusion h
    | ok w =>
      simp only [hw] at h
      cases hh : pyIntAttr (page_elem.get "imageHeight") with
      | error e => simp only [hh] at h; exact Except.noConfusion h
      | ok hgt =>
        simp only [hh] at h
        cases hro : _parse_reading_order doc with
        | error e => simp only [hro] at h; exact Except.noConfusion h
        | ok ro =>
          simp only [hro] at h
          cases hrg : _parse_text_regions doc ro with
          | error e => simp only [hrg] at h; exact Except.noConfusion h
          | ok regions =>
            simp only [hrg, Except.ok.injEq, Option.some.injEq] at h
            exact ⟨page_elem, w, hgt, ro, regions, rfl, hw, hh, rfl, hrg, h.symm⟩

/-- C2 counterexample: on a well-formed document whose `Page` carries
`imageWidth="abc"`, the single-document parser raises `ValueError` (the
`int` call is inside the `try` block but only `ET.ParseError` is caught),
so it neither returns a page nor falls back to width 0. -/
theorem C2_cex_nonnumeric_width_raises :
    _parse_page_xml (.ok widthAbcDoc) "x" "p" = .error .valueError := rfl

/-- C2 amended: the parser never raises on malformed XML — the parse
failure is caught and `none` returned — and the page width and height fall
back to 0 when the corresponding attribute is absent; but a present
non-numeric value raises `ValueError` (handled only by the batch loop, not
here). -/
theorem C2_parse_error_and_absent_attrs :
    (∀ (s p : String), _parse_page_xml (.error .malformed) s p = .ok none) ∧
    (∀ (doc : Element) (s p : String) (pd : PageData) (page_elem : Element),
      _parse_page_xml (.ok doc) s p = .ok (some pd) →
      doc.findChild "Page" = some page_elem →
      (page_elem.get "imageWidth" = none → pd.image_width = 0) ∧
      (page_elem.get "imageHeight" = none → pd.image_height = 0)) := by
  constructor
  · intro s p; rfl
  · intro doc s p pd page_elem h hpage
    obtain ⟨pe, w, hgt, ro, regions, hpe, hw, hh, -, -, hpd⟩ :=
      parse_page_xml_ok_shape doc s p pd h
    have hpe' : pe = page_elem := Option.some.inj (hpe ▸ hpage)
    subst hpe'
    subst hpd
    constructor
    · intro habs
      rw [habs] at hw
      have : (0 : Int) = w := Except.ok.inj hw
      simp [← this]
    · intro habs
      rw [habs] at hh
      have : (0 : Int) = hgt := Except.ok.inj hh
      simp [← this]

/-- C2 witness: a document whose `Page` has no size attributes parses to a
page, and both dimensions are 0. -/
theorem C2_parse_error_and_absent_attrs_witness :
    _parse_page_xml (.error .malformed) "x" "p" = .ok none ∧
    barePage.image_width = 0 ∧ barePage.image_height = 0 := by
  refine ⟨C2_parse_error_and_absent_attrs.1 "x" "p", ?_⟩
  have h := C2_parse_error_and_absent_attrs.2 bareDoc "x" "p" barePage
    (.mk "Page" [] [] none) rfl rfl
  exact ⟨h.1 rfl, h.2 rfl⟩

/-! ## C3: point-list parsing -/

theorem coordsLoop_ok :
    ∀ (toks : List (List Char)) (acc : List (Int × Int)),
      (∀ tok ∈ toks, tokOk tok = true) →
      coordsLoop toks acc = .ok (acc ++ toks.filterMap tokVal) := by
  intro toks
  induction toks with
  | nil => intro acc _; simp [coordsLoop]
  | cons tok rest ih =>
    intro acc hall
    have htok : tokOk tok = true := hall tok (List.mem_cons_self tok rest)
    have hrest : ∀ t ∈ rest, tokOk t = true :=
      fun t ht => hall t (List.mem_cons_of_mem _ ht)
    by_cases hc : tok.contains ',' = true
    · unfold tokOk at htok
      rw [hc] at htok
      simp only [Bool.not_true, Bool.false_or] at htok
      rcases hsp : chSplitOn ',' tok with _ | ⟨xs, _ | ⟨ys, _ | ⟨z, zs⟩⟩⟩ <;>
        rw [hsp] at htok
      · exact Bool.noConfusion htok
      · exact Bool.noConfusion htok
      · simp only [pairOk] at htok
        cases hx : pyIntList xs with
        | error e => rw [hx] at htok; exact Bool.noConfusion htok
        | ok x =>
          cases hy : pyIntList ys with
          | error e => rw [hx, hy] at htok; exact Bool.noConfusion htok
          | ok y =>
            have hval : tokVal tok = some (x, y) := by
              unfold tokVal
              rw [if_pos hc, hsp]
              simp only [pairVal, hx, hy]
            simp only [coordsLoop, hc, hsp, hx, hy, if_true]
            rw [ih (acc ++ [(x, y)]) hrest, List.filterMap_cons, hval]
            simp
      · exact Bool.noConfusion htok
    · have hval : tokVal tok = none := by
        unfold tokVal
        rw [if_neg hc]
      simp only [coordsLoop, if_neg hc]
      rw [ih acc hrest, List.filterMap_cons, hval]

theorem coordsLoop_bad :
    ∀ (toks : List (List Char)) (acc : List (Int × Int)),
      (∃ tok ∈ toks, tokOk tok = false) →
      coordsLoop toks acc = .error .valueError := by
  intro toks
  induction toks with
  | nil => rintro acc ⟨tok, hmem, -⟩; exact absurd hmem (List.not_mem_nil tok)
  | cons tok rest ih =>
    rintro acc ⟨bad, hmem, hbad⟩
    by_cases hgood : tokOk tok = true
    · have hbadrest : bad ∈ rest := by
        rcases List.mem_cons.mp hmem with rfl | hm
        · rw [hgood] at hbad; exact Bool.noConfusion hbad
        · exact hm
      by_cases hc : tok.contains ',' = true
      · unfold tokOk at hgood
        rw [hc] at hgood
        simp only [Bool.not_true, Bool.false_or] at hgood
        rcases hsp : chSplitOn ',' tok with _ | ⟨xs, _ | ⟨ys, _ | ⟨z, zs⟩⟩⟩ <;>
          rw [hsp] at hgood
        · exact Bool.noConfusion hgood
        · exact Bool.noConfusion hgood
        · simp only [pairOk] at hgood
          cases hx : pyIntList xs with
          | error e => rw [hx] at hgood; exact Bool.noConfusion hgood
          | ok x =>
            cases hy : pyIntList ys with
            | error e => rw [hx, hy] at hgood; exact Bool.noConfusion hgood
            | ok y =>
              simp only [coordsLoop, hc, hsp, hx, hy, if_true]
              exact ih _ ⟨bad, hbadrest, hbad⟩
        · exact Bool.noConfusion hgood
      · simp only [coordsLoop, if_neg hc]
        exact ih _ ⟨bad, hbadrest, hbad⟩
    · have hbadtok : tokOk tok = false := Bool.eq_false_iff.mpr hgood
      unfold tokOk at hbadtok
      by_cases hc : tok.contains ',' = true
      · rw [hc] at hbadtok
        simp only [Bool.not_true, Bool.false_or] at hbadtok
        rcases hsp : chSplitOn ',' tok with _ | ⟨xs, _ | ⟨ys, _ | ⟨z, zs⟩⟩⟩ <;>
          rw [hsp] at hbadtok
        · simp only [coordsLoop, hc, hsp, if_true]
        · simp only [coordsLoop, hc, hsp, if_true]
        · simp only [pairOk] at hbadtok
          cases hx : pyIntList xs with
          | error e =>
            simp only [coordsLoop, hc, hsp, hx, if_true]
          | ok x =>
            cases hy : pyIntList ys with
            | error e =>
              simp only [coordsLoop, hc, hsp, hx, hy, if_true]
            | ok y => rw [hx, hy] at hbadtok; exact Bool.noConfusion hbadtok
        · simp only [coordsLoop, hc, hsp, if_true]
      · rw [Bool.not_eq_true] at hc
        rw [hc] at hbadtok
        exact Bool.noConfusion hbadtok

/-- C3 counterexample: the points token `a,b` contains a comma, so it is
not skipped: `int("a")` raises `ValueError` and polygon parsing aborts
instead of dropping the malformed pair. -/
theorem C3_cex_malformed_pair_raises :
    _parse_coords (some badCoordsElem) = .error .valueError := rfl

/-- C3 amended: polygon parsing drops tokens without a comma, and when
every comma-containing token splits into exactly two fields Python `int`
accepts (optionally signed digit runs, PEP 515 underscore grouping
included) it returns the corresponding integer pairs in order; but any
comma-containing token that is not such a well-formed pair raises
`ValueError` (aborting the whole polygon) instead of being dropped. -/
theorem C3_coords_parsing :
    _parse_coords none = .ok [] ∧
    (∀ el : Element,
      (∀ tok ∈ chWords ((el.get "points").getD "").data, tokOk tok = true) →
      _parse_coords (some el)
        = .ok ((chWords ((el.get "points").getD "").data).filterMap tokVal)) ∧
    (∀ el : Element,
      (∃ tok ∈ chWords ((el.get "points").getD "").data, tokOk tok = false) →
      _parse_coords (some el) = .error .valueError) := by
  refine ⟨rfl, ?_, ?_⟩
  · intro el hall
    simp only [_parse_coords]
    by_cases hs : (el.get "points").getD "" = ""
    · rw [if_pos hs, hs]
      rfl
    · rw [if_neg hs]
      exact coordsLoop_ok _ [] hall
  · intro el hbad
    simp only [_parse_coords]
    by_cases hs : (el.get "points").getD "" = ""
    · rw [hs] at hbad
      obtain ⟨tok, hmem, -⟩ := hbad
      exact absurd hmem (List.not_mem_nil tok)
    · rw [if_neg hs]
      exact coordsLoop_bad _ [] hbad

/-- C3 witness: a points attribute mixing well-formed pairs with a
comma-less token parses to the pairs in order, the stray token dropped;
and a pair with PEP 515 underscore grouping is numeric for `int`, so it
is kept, not raised on. -/
theorem C3_coords_parsing_witness :
    _parse_coords (some (.mk "Coords" [("points", "1,2 junk 3,4")] [] none))
      = .ok [(1, 2), (3, 4)] ∧
    _parse_coords (some (.mk "Coords" [("points", "1_2,3")] [] none))
      = .ok [(12, 3)] :=
  ⟨C3_coords_parsing.2.1 (.mk "Coords" [("points", "1,2 junk 3,4")] [] none)
     (by decide),
   C3_coords_parsing.2.1 (.mk "Coords" [("points", "1_2,3")] [] none)
     (by decide)⟩

/-! ## C4: polygon point counts -/

/-- C4 counterexample: a parsed page whose single region polygon has
exactly two points, so the claimed "empty or at least 3 points" invariant
fails on the parser's output. -/
theorem C4_cex_two_point_polygon :
    _parse_page_xml (.ok twoPointDoc) "x" "p" = .ok (some twoPointPage) ∧
    ¬(twoPointPage.regions.all
        (fun r => r.coords.isEmpty || decide (3 ≤ r.coords.length)) = true) :=
  ⟨rfl, by decide⟩

/-- C4 amended: the parser imposes no lower bound on polygon size — it
keeps whatever well-formed pairs the points attribute holds, and parsed
pages whose region polygons have exactly one point and exactly two points
both exist. -/
theorem C4_no_minimum_point_count :
    (_parse_page_xml (.ok onePointDoc) "x" "p" = .ok (some onePointPage) ∧
      onePointPage.regions.map (fun r => r.coords.length) = [1]) ∧
    (_parse_page_xml (.ok twoPointDoc) "x" "p" = .ok (some twoPointPage) ∧
      twoPointPage.regions.map (fun r => r.coords.length) = [2]) :=
  ⟨⟨rfl, rfl⟩, ⟨rfl, rfl⟩⟩

/-! ## C8: text-mode join -/

theorem getTextEquiv_ne_empty (e : Element) : _get_text_equiv e ≠ some "" := by
  unfold _get_text_equiv
  split
  · split
    · split
      · exact fun hcon => Option.noConfusion hcon
      · rename_i he
        intro hcon
        exact he (Option.some.inj hcon)
    · exact fun hcon => Option.noConfusion hcon
  · exact fun hcon => Option.noConfusion hcon

theorem buildRegion_full_text (ro : List (String × Int)) (el : Element)
    (r : TextRegion) (h : buildRegion ro el = .ok r) :
    r.full_text = _get_text_equiv el := by
  unfold buildRegion at h
  cases hc : _parse_coords (el.findChild "Coords") with
  | error e => simp only [hc] at h; exact Except.noConfusion h
  | ok cs =>
    simp only [hc] at h
    cases hl : _parse_text_lines el ((el.get "id").getD "") with
    | error e => simp only [hl] at h; exact Except.noConfusion h
    | ok lns =>
      simp only [hl] at h
      rw [← Except.ok.inj h]

theorem regionsLoop_mem (ro : List (String × Int)) :
    ∀ (els : List Element) (out : List TextRegion),
      regionsLoop ro els = .ok out →
      ∀ r ∈ out, ∃ el ∈ els, buildRegion ro el = .ok r := by
  intro els
  induction els with
  | nil =>
    intro out h r hr
    have hout : ([] : List TextRegion) = out := Except.ok.inj h
    rw [← hout] at hr
    exact absurd hr (List.not_mem_nil r)
  | cons el rest ih =>
    intro out h r hr
    unfold regionsLoop at h
    cases hb : buildRegion ro el with
    | error e => rw [hb] at h; exact Except.noConfusion h
    | ok r0 =>
      rw [hb] at h
      cases hrest : regionsLoop ro rest with
      | error e => rw [hrest] at h; exact Except.noConfusion h
      | ok rs =>
        rw [hrest] at h
        have hout : r0 :: rs = out := Except.ok.inj h
        rw [← hout] at hr
        rcases List.mem_cons.mp hr with rfl | hmem
        · exact ⟨el, List.mem_cons_self el rest, hb⟩
        · obtain ⟨el2, hel2, hb2⟩ := ih rs hrest r hmem
          exact ⟨el2, List.mem_cons_of_mem _ hel2, hb2⟩

theorem filterMap_truthy_of_no_empty (regions : List TextRegion)
    (h : ∀ r ∈ regions, r.full_text ≠ some "") :
    regions.filterMap (fun r =>
      match r.full_text with
      | some t => if t = "" then none else some t
      | none => none)
      = regions.filterMap (fun r => r.full_text) := by
  induction regions with
  | nil => rfl
  | cons r rest ih =>
    have hr := h r (List.mem_cons_self r rest)
    have hrest : ∀ x ∈ rest, x.full_text ≠ some "" :=
      fun x hx => h x (List.mem_cons_of_mem _ hx)
    cases hft : r.full_text with
    | none => simp only [List.filterMap_cons, hft, ih hrest]
    | some t =>
      have hne : ¬(t = "") := by
        intro he
        rw [he] at hft
        exact hr hft
      simp only [List.filterMap_cons, hft, if_neg hne, ih hrest]

/-- C8 counterexample: on a page one of whose regions carries an
empty-string `full_text`, the emitted text is not the newline-join of the
non-null texts — the empty string is skipped by Python truthiness exactly
like `None`, where the claim says it is distinct. -/
theorem C8_cex_empty_text_skipped :
    textExportText emptyTextPage ≠ joinNonNullTexts emptyTextPage := by
  decide

/-- C8 amended: the text mode joins with newlines exactly the `full_text`
values that are truthy (non-null and non-empty); on every page the parser
produces the two coincide, because the parser's text lookup never yields
an empty string — so for parser-produced pages the emitted text is the
newline-join of the non-null region texts in reading order. -/
theorem C8_text_mode_join (doc : Element) (s p : String) (pd : PageData)
    (h : _parse_page_xml (.ok doc) s p = .ok (some pd)) :
    textExportText pd = joinNonNullTexts pd := by
  obtain ⟨pe, w, hgt, ro, regions, hpe, hw, hh, hro, hrg, hpd⟩ :=
    parse_page_xml_ok_shape doc s p pd h
  have hreg : pd.regions = regions := by rw [hpd]
  have hnoempty : ∀ r ∈ pd.regions, r.full_text ≠ some "" := by
    rw [hreg]
    intro r hr
    unfold _parse_text_regions at hrg
    cases hb : buildRegions doc ro with
    | error e => rw [hb] at hrg; exact Except.noConfusion hrg
    | ok us =>
      rw [hb] at hrg
      have hsort : regions = pySortByKey (fun x => x.reading_order) us :=
        (Except.ok.inj hrg).symm
      rw [hsort] at hr
      have hrus : r ∈ us := (mem_pySortByKey _ r us).mp hr
      obtain ⟨el, -, hbr⟩ := regionsLoop_mem ro _ us hb r hrus
      rw [buildRegion_full_text ro el r hbr]
      exact getTextEquiv_ne_empty el
  unfold textExportText joinNonNullTexts
  rw [filterMap_truthy_of_no_empty pd.regions hnoempty]

/-- C8 witness: the two-region document (reading orders 1 and 0, texts "B"
and "A") parses to a page whose text-mode output is the reading-order-0
text, a newline, then the reading-order-1 text. -/
theorem C8_text_mode_join_witness :
    textExportText twoRegionPage = joinNonNullTexts twoRegionPage ∧
    textExportText twoRegionPage = "A\nB" :=
  ⟨C8_text_mode_join twoRegionDoc "x" "p" twoRegionPage rfl, rfl⟩

end PagexmlHf
